import Mathlib

/-!
Shallow embedding of `requiem`'s native connection layer
(`native/requiem_nif/src/connection.rs`).

The external QUIC protocol engine (`quiche`) is a black box; we model one
engine instance as a finite *script* of responses for each capability the
code consumes (`recv`, `stream_recv`, `stream_send`, `dgram_recv`,
`dgram_send`, `send`, `timeout`, `close`).  A loop in the code pops one
scripted response per engine call, so every loop terminates structurally.
Every operation returns, besides its result and updated state, the list of
events it emitted to the owner process and the list of mutating engine
calls it attempted, in order.  Bytes are `List Nat`; `Option` on a result
models a Rust panic (the `unwrap` in `next_timeout`).
-/

namespace Requiem

/-- Bytes, as in the Rust `&[u8]` / `Vec<u8>` values the NIF passes around. -/
abbrev BYTES := List Nat

/-- Result of one scripted engine call: success carrying a payload, the
distinguished `quiche::Error::Done` terminal signal, or any other engine
error (the code treats all of those alike). -/
inductive EResp (α : Type) where
  | ok (a : α)
  | done
  | err
deriving DecidableEq, Repr

/-- The error atoms the NIF returns to the host
(`atoms::already_closed`, `atoms::system_error`, `atoms::not_found`). -/
inductive Atom where
  | already_closed
  | system_error
  | not_found
deriving DecidableEq, Repr

/-- Events sent to the owner pid: `__stream_recv__`, `__dgram_recv__`,
`__drain__` tuples. -/
inductive Event where
  | streamRecvEvt (sid : Nat) (data : BYTES)
  | dgramRecvEvt (data : BYTES)
  | drainEvt (data : BYTES)
deriving DecidableEq, Repr

/-- Mutating engine calls attempted by the wrapper, with their arguments.
Pure queries (`is_closed`, `timeout`, `is_established`, `is_in_early_data`)
are not recorded. -/
inductive ECall where
  | recv (packet : BYTES)
  | streamRecv (sid : Nat)
  | streamSend (sid : Nat) (data : BYTES) (fin : Bool)
  | dgramRecv
  | dgramSend (data : BYTES)
  | send
  | onTimeout
  | close (app : Bool) (code : Nat) (reason : BYTES)
deriving DecidableEq, Repr

/-- `std::time::Duration`: `secs` is a `u64`, `nanos < 10^9`. -/
structure Duration where
  secs : Nat
  nanos : Nat
deriving DecidableEq, Repr

/-- `Duration::as_millis`, exact (the Rust computation is in `u128` and
cannot overflow there since `secs < 2^64`). -/
def Duration.as_millis (d : Duration) : Nat :=
  d.secs * 1000 + d.nanos / 1000000

/-- One scripted `quiche::Connection`.  The boolean queries are the values
the pure engine queries return; each `...Script` list is consumed one entry
per engine call; an exhausted script behaves like the engine's terminal
signal (`Done` / no data). -/
structure Engine where
  closed : Bool
  established : Bool
  earlyData : Bool
  recvResp : EResp Nat
  readable : List Nat
  streamRecvScript : List (EResp (BYTES × Bool))
  dgramRecvScript : List (EResp BYTES)
  streamSendScript : List (EResp Nat)
  dgramSendResp : EResp Unit
  sendScript : List (EResp BYTES)
  timeoutVal : Option Duration
  closeResp : EResp Unit
deriving DecidableEq, Repr

/-- `Connection`: module identifier, engine instance, and the private
1350-byte egress/dgram scratch buffer (`buf: [u8; 1350]`). -/
structure Connection where
  module : BYTES
  engine : Engine
  buf : BYTES
deriving DecidableEq, Repr

/-- `Connection::new`. -/
def Connection.new (module : BYTES) (engine : Engine) : Connection :=
  ⟨module, engine, List.replicate 1350 0⟩

/-- `Connection::is_closed`. -/
def Connection.is_closed (c : Connection) : Bool :=
  c.engine.closed

/-- The engine writing `bytes` into the front of a fixed-size buffer
(`len = bytes.length` bytes reported written); the buffer keeps its
length. -/
def writeBuf (buf bytes : BYTES) : BYTES :=
  bytes.take buf.length ++ buf.drop bytes.length

/-- The `STREAM_DATA_BUFFERS` table: module name to list of buffers. -/
abbrev Pool := List (BYTES × List BYTES)

/-- `HashMap::get` on the pool table. -/
def Pool.get (p : Pool) (m : BYTES) : Option (List BYTES) :=
  match p with
  | [] => none
  | (k, v) :: rest => if k = m then some v else Pool.get rest m

/-- Store back buffer number `i` of module `m` (the contents a stream-read
loop left in the locked buffer). -/
def Pool.setBuf (p : Pool) (m : BYTES) (i : Nat) (b : BYTES) : Pool :=
  match p with
  | [] => []
  | (k, v) :: rest =>
      if k = m then (k, v.set i b) :: rest
      else (k, v) :: Pool.setBuf rest m i b

/-- `buffer_init(module, num, size)`: allocate `num` buffers of `size`
bytes under `module` unless the table already has the key (contents are
uninitialized in Rust; modelled as zeros — they are scratch space). -/
def buffer_init (p : Pool) (module : BYTES) (num : Nat) (size : Nat) : Pool :=
  match Pool.get p module with
  | some _ => p
  | none => p ++ [(module, List.replicate num (List.replicate size 0))]

/-- Output of one of the engine-draining read/write loops. -/
structure LoopOut (α : Type) where
  script : List (EResp α)
  buf : BYTES
  events : List Event
  calls : List ECall
deriving DecidableEq, Repr

/-- `while let Ok((len, _fin)) = stream_recv(s, buf)` body of
`handle_stream`: pop scripted responses for stream `s`, emitting a
`__stream_recv__` event for each nonzero-length read, until the engine
fails (`Done` or error). -/
def streamRecvLoop (s : Nat) : List (EResp (BYTES × Bool)) → BYTES → LoopOut (BYTES × Bool)
  | [], buf => ⟨[], buf, [], [ECall.streamRecv s]⟩
  | EResp.ok (bytes, _fin) :: rest, buf =>
      let buf2 := writeBuf buf bytes
      let r := streamRecvLoop s rest buf2
      ⟨r.script, r.buf,
        (if 0 < bytes.length then [Event.streamRecvEvt s (buf2.take bytes.length)] else []) ++ r.events,
        ECall.streamRecv s :: r.calls⟩
  | EResp.done :: rest, buf => ⟨rest, buf, [], [ECall.streamRecv s]⟩
  | EResp.err :: rest, buf => ⟨rest, buf, [], [ECall.streamRecv s]⟩

/-- `for s in self.conn.readable()` of `handle_stream`, all streams read
into the one locked pool buffer. -/
def streamsLoop : List Nat → List (EResp (BYTES × Bool)) → BYTES → LoopOut (BYTES × Bool)
  | [], scr, buf => ⟨scr, buf, [], []⟩
  | s :: ss, scr, buf =>
      let r := streamRecvLoop s scr buf
      let r2 := streamsLoop ss r.script r.buf
      ⟨r2.script, r2.buf, r.events ++ r2.events, r.calls ++ r2.calls⟩

/-- `while let Ok(len) = dgram_recv(&mut self.buf)` of `handle_dgram`:
reads go into the connection's private scratch buffer; each nonzero-length
datagram is emitted. -/
def dgramLoop : List (EResp BYTES) → BYTES → LoopOut BYTES
  | [], buf => ⟨[], buf, [], [ECall.dgramRecv]⟩
  | EResp.ok bytes :: rest, buf =>
      let buf2 := writeBuf buf bytes
      let r := dgramLoop rest buf2
      ⟨r.script, r.buf,
        (if 0 < bytes.length then [Event.dgramRecvEvt (buf2.take bytes.length)] else []) ++ r.events,
        ECall.dgramRecv :: r.calls⟩
  | EResp.done :: rest, buf => ⟨rest, buf, [], [ECall.dgramRecv]⟩
  | EResp.err :: rest, buf => ⟨rest, buf, [], [ECall.dgramRecv]⟩

/-- The reason `Connection::close` is called from the drain fallback:
the bytes of `b"fail"`. -/
def failReason : BYTES := [0x66, 0x61, 0x69, 0x6c]

/-- `Connection::drain`: loop on `self.conn.send(&mut self.buf)`; each
produced packet is emitted as a `__drain__` event; `Done` stops the loop;
any other error makes the wrapper call `self.conn.close(false, 0x1,
b"fail")` and stop. -/
def drainLoop : List (EResp BYTES) → BYTES → LoopOut BYTES
  | [], buf => ⟨[], buf, [], [ECall.send]⟩
  | EResp.ok bytes :: rest, buf =>
      let buf2 := writeBuf buf bytes
      let r := drainLoop rest buf2
      ⟨r.script, r.buf, Event.drainEvt (buf2.take bytes.length) :: r.events, ECall.send :: r.calls⟩
  | EResp.done :: rest, buf => ⟨rest, buf, [], [ECall.send]⟩
  | EResp.err :: rest, buf =>
      ⟨rest, buf, [], [ECall.send, ECall.close false 1 failReason]⟩

/-- `Connection::drain` lifted to the connection state. -/
def Connection.drain (c : Connection) : Connection × List Event × List ECall :=
  let r := drainLoop c.engine.sendScript c.buf
  ({ c with engine := { c.engine with sendScript := r.script }, buf := r.buf },
   r.events, r.calls)

/-- `Connection::next_timeout`: the engine's timer in whole milliseconds,
or 60000 when no timer is set.  `none` models the panic of
`TryFrom::<u64>::try_from(timeout.as_millis()).unwrap()` when the
millisecond count does not fit in a `u64`. -/
def Connection.next_timeout (c : Connection) : Option Nat :=
  match c.engine.timeoutVal with
  | some d => if d.as_millis < 2 ^ 64 then some d.as_millis else none
  | none => some 60000

/-- `Connection::handle_stream`.  `rnd` stands for the entropy consumed by
the slot choice.  Modelled from the spec: `common::random_slot_index`
(whose source, `common.rs`, is not part of the given sources) returns a
pseudo-random index into the pool's buffer list; we model it as `rnd`
reduced modulo the list length, and an empty buffer list (index into an
empty `Vec`) as a panic (`none`). -/
def Connection.handle_stream (c : Connection) (pool : Pool) (rnd : Nat) :
    Option (Connection × Pool × List Event × List ECall) :=
  if c.engine.earlyData || c.engine.established then
    match Pool.get pool c.module with
    | some bufs =>
        if bufs.length = 0 then none
        else
          let idx := rnd % bufs.length
          let r := streamsLoop c.engine.readable c.engine.streamRecvScript (bufs.getD idx [])
          some ({ c with engine := { c.engine with streamRecvScript := r.script } },
                Pool.setBuf pool c.module idx r.buf, r.events, r.calls)
    | none => some (c, pool, [], [])
  else some (c, pool, [], [])

/-- `Connection::handle_dgram`. -/
def Connection.handle_dgram (c : Connection) : Connection × List Event × List ECall :=
  if c.engine.earlyData || c.engine.established then
    let r := dgramLoop c.engine.dgramRecvScript c.buf
    ({ c with engine := { c.engine with dgramRecvScript := r.script }, buf := r.buf },
     r.events, r.calls)
  else (c, [], [])

instance exceptDecEq {ε α : Type} [DecidableEq ε] [DecidableEq α] :
    DecidableEq (Except ε α)
  | Except.ok a, Except.ok b =>
      if h : a = b then isTrue (by rw [h])
      else isFalse (fun hh => h (Except.ok.inj hh))
  | Except.ok _, Except.error _ => isFalse (fun hh => Except.noConfusion hh)
  | Except.error _, Except.ok _ => isFalse (fun hh => Except.noConfusion hh)
  | Except.error a, Except.error b =>
      if h : a = b then isTrue (by rw [h])
      else isFalse (fun hh => h (Except.error.inj hh))

/-- Result of `connection_on_packet`. -/
structure PacketOut where
  result : Except Atom Nat
  conn : Connection
  pool : Pool
  events : List Event
  calls : List ECall
deriving DecidableEq, Repr

/-- Result of the other connection operations returning a timeout. -/
structure OpOut where
  result : Except Atom Nat
  conn : Connection
  events : List Event
  calls : List ECall
deriving DecidableEq, Repr

/-- `Connection::on_packet`. -/
def Connection.on_packet (c : Connection) (pool : Pool) (packet : BYTES) (rnd : Nat) :
    Option PacketOut :=
  if !c.engine.closed then
    match c.engine.recvResp with
    | EResp.ok _len =>
        match c.handle_stream pool rnd with
        | none => none
        | some (c1, pool1, evS, csS) =>
            let (c2, evD, csD) := c1.handle_dgram
            let (c3, evR, csR) := c2.drain
            match c3.next_timeout with
            | some t =>
                some ⟨Except.ok t, c3, pool1, evS ++ evD ++ evR,
                      ECall.recv packet :: (csS ++ csD ++ csR)⟩
            | none => none
    | _ => some ⟨Except.error Atom.system_error, c, pool, [], [ECall.recv packet]⟩
  else some ⟨Except.error Atom.already_closed, c, pool, [], []⟩

/-- `Connection::on_timeout`. -/
def Connection.on_timeout (c : Connection) : Option OpOut :=
  if !c.engine.closed then
    let (c1, evR, csR) := c.drain
    match c1.next_timeout with
    | some t => some ⟨Except.ok t, c1, evR, ECall.onTimeout :: csR⟩
    | none => none
  else some ⟨Except.error Atom.already_closed, c, [], []⟩

/-- Ghost classifier for how the `stream_send` loop stopped, mirroring its
three exits: the full payload was queued (`pos >= size` break), the engine
answered `Done` ("cannot accept more right now", including an exhausted
script), or the engine failed (`return Err(system_error)`). -/
inductive StopReason where
  | completed
  | capacity
  | engineErr
deriving DecidableEq, Repr

/-- State carried out of the `stream_send` loop.  `accepted` is a ghost
list of the lengths the engine reported accepting, in order. -/
structure SendLoopOut where
  reason : StopReason
  pos : Nat
  accepted : List Nat
  script : List (EResp Nat)
  sendScr : List (EResp BYTES)
  buf : BYTES
  events : List Event
  calls : List ECall
deriving DecidableEq, Repr

/-- The `loop` of `Connection::stream_send`: call engine `stream_send`
with the remaining suffix `data[pos..]` and `fin = true`; on `Ok(len)`
advance `pos` by `len` and drain; break once `pos >= data.len()`; `Done`
breaks without error; any other error aborts with an engine error. -/
def streamSendLoop (sid : Nat) (data : BYTES) :
    List (EResp Nat) → Nat → List (EResp BYTES) → BYTES → SendLoopOut
  | [], pos, sendScr, buf =>
      ⟨StopReason.capacity, pos, [], [], sendScr, buf, [],
        [ECall.streamSend sid (data.drop pos) true]⟩
  | EResp.ok len :: rest, pos, sendScr, buf =>
      let call := ECall.streamSend sid (data.drop pos) true
      let pos2 := pos + len
      let d := drainLoop sendScr buf
      if data.length ≤ pos2 then
        ⟨StopReason.completed, pos2, [len], rest, d.script, d.buf, d.events, call :: d.calls⟩
      else
        let r := streamSendLoop sid data rest pos2 d.script d.buf
        ⟨r.reason, r.pos, len :: r.accepted, r.script, r.sendScr, r.buf,
          d.events ++ r.events, call :: (d.calls ++ r.calls)⟩
  | EResp.done :: rest, pos, sendScr, buf =>
      ⟨StopReason.capacity, pos, [], rest, sendScr, buf, [],
        [ECall.streamSend sid (data.drop pos) true]⟩
  | EResp.err :: rest, pos, sendScr, buf =>
      ⟨StopReason.engineErr, pos, [], rest, sendScr, buf, [],
        [ECall.streamSend sid (data.drop pos) true]⟩

/-- The connection state after the `stream_send` loop: updated engine
scripts and egress buffer. -/
def sendUpdated (c : Connection) (r : SendLoopOut) : Connection :=
  { c with engine := { c.engine with streamSendScript := r.script, sendScript := r.sendScr },
           buf := r.buf }

/-- `Connection::stream_send`. -/
def Connection.stream_send (c : Connection) (sid : Nat) (data : BYTES) : Option OpOut :=
  if !c.engine.closed then
    let r := streamSendLoop sid data c.engine.streamSendScript 0 c.engine.sendScript c.buf
    let c1 : Connection := sendUpdated c r
    match r.reason with
    | StopReason.engineErr => some ⟨Except.error Atom.system_error, c1, r.events, r.calls⟩
    | _ =>
        match c1.next_timeout with
        | some t => some ⟨Except.ok t, c1, r.events, r.calls⟩
        | none => none
  else some ⟨Except.error Atom.already_closed, c, [], []⟩

/-- `Connection::dgram_send`: one engine call; `Ok(())` drains and returns
the next timeout; any error (including `Done`) is a system error. -/
def Connection.dgram_send (c : Connection) (data : BYTES) : Option OpOut :=
  if !c.engine.closed then
    match c.engine.dgramSendResp with
    | EResp.ok _ =>
        let (c1, evR, csR) := c.drain
        match c1.next_timeout with
        | some t => some ⟨Except.ok t, c1, evR, ECall.dgramSend data :: csR⟩
        | none => none
    | _ => some ⟨Except.error Atom.system_error, c, [], [ECall.dgramSend data]⟩
  else some ⟨Except.error Atom.already_closed, c, [], []⟩

/-- Result of `connection_close`. -/
structure CloseOut where
  result : Except Atom Unit
  conn : Connection
  events : List Event
  calls : List ECall
deriving DecidableEq, Repr

/-- `Connection::close`: engine `close`; `Ok` drains; `Done` ("already
requested") is success; other errors are system errors. -/
def Connection.close (c : Connection) (app : Bool) (err : Nat) (reason : BYTES) : CloseOut :=
  if !c.engine.closed then
    match c.engine.closeResp with
    | EResp.ok _ =>
        let (c1, evR, csR) := c.drain
        ⟨Except.ok (), c1, evR, ECall.close app err reason :: csR⟩
    | EResp.done => ⟨Except.ok (), c, [], [ECall.close app err reason]⟩
    | EResp.err => ⟨Except.error Atom.system_error, c, [], [ECall.close app err reason]⟩
  else ⟨Except.error Atom.already_closed, c, [], []⟩

/-- An engine configuration as stored in the Config Registry; its
`acceptFn` is what `quiche::accept(scid, odcid, config)` yields with this
configuration. -/
structure Config where
  acceptFn : BYTES → Option BYTES → Except Unit Engine

/-- The `CONFIGS` registry: module name to configuration. -/
abbrev Registry := List (BYTES × Config)

/-- `HashMap::get` on the registry. -/
def Registry.get (r : Registry) (m : BYTES) : Option Config :=
  match r with
  | [] => none
  | (k, v) :: rest => if k = m then some v else Registry.get rest m

/-- `LockedConnection`: the mutex-wrapped connection handed to the host
(the lock itself is a concurrency artifact; here it is the wrapper). -/
structure LockedConnection where
  conn : Connection

/-- `connection_accept(module, scid, odcid)`: registry lookup, then
`quiche::accept(scid, Some(odcid), config)`, then wrap in a
`LockedConnection`. -/
def connection_accept (reg : Registry) (module scid odcid : BYTES) :
    Except Atom LockedConnection :=
  match Registry.get reg module with
  | some cfg =>
      match cfg.acceptFn scid (some odcid) with
      | Except.ok e => Except.ok ⟨Connection.new module e⟩
      | Except.error _ => Except.error Atom.system_error
  | none => Except.error Atom.not_found

/-! ### Spec-side characterizations -/

/-- The successful payloads at the head of a script, up to the first
non-`ok` entry: exactly the responses a `while Ok` loop consumes
successfully. -/
def okRun {α : Type} : List (EResp α) → List α
  | EResp.ok a :: rest => a :: okRun rest
  | _ => []

/-- What remains of a script after its leading `ok` run. -/
def afterOk {α : Type} : List (EResp α) → List (EResp α)
  | EResp.ok _ :: rest => afterOk rest
  | l => l

/-- The data chunks successively read through a scratch buffer: chunk `i`
is the first `len` bytes of the buffer right after the engine wrote the
`i`-th payload into it. -/
def readDatas (buf : BYTES) : List BYTES → List BYTES
  | [] => []
  | bs :: rest => (writeBuf buf bs).take bs.length :: readDatas (writeBuf buf bs) rest

/-- Same as `readDatas` but dropping zero-length reads (the dgram and
stream loops only emit nonzero-length data). -/
def nonzeroReadDatas (buf : BYTES) : List BYTES → List BYTES
  | [] => []
  | bs :: rest =>
      (if 0 < bs.length then [(writeBuf buf bs).take bs.length] else []) ++
        nonzeroReadDatas (writeBuf buf bs) rest

/-- Whether every scripted timer value fits the `u64` conversion in
`next_timeout` (vacuously true when no timer is set). -/
def tfitsB : Option Duration → Bool
  | none => true
  | some d => d.as_millis < 2 ^ 64

/-- The millisecond value `next_timeout` reports when it does not panic. -/
def timeoutMillis : Option Duration → Nat
  | none => 60000
  | some d => d.as_millis

/-- Event kind tests. -/
def Event.isStream : Event → Bool
  | Event.streamRecvEvt _ _ => true
  | _ => false

def Event.isDgram : Event → Bool
  | Event.dgramRecvEvt _ => true
  | _ => false

def Event.isDrain : Event → Bool
  | Event.drainEvt _ => true
  | _ => false

/-- Call kind tests. -/
def ECall.isStreamRecv : ECall → Bool
  | ECall.streamRecv _ => true
  | _ => false

def ECall.isSend : ECall → Bool
  | ECall.send => true
  | _ => false

/-! ### Helper lemmas -/

theorem next_timeout_eq {c : Connection} (h : tfitsB c.engine.timeoutVal = true) :
    c.next_timeout = some (timeoutMillis c.engine.timeoutVal) := by
  cases hv : c.engine.timeoutVal with
  | none => simp [Connection.next_timeout, timeoutMillis, hv]
  | some d =>
      have hlt : d.as_millis < 2 ^ 64 := by
        rw [hv] at h; exact of_decide_eq_true h
      simp only [Connection.next_timeout, timeoutMillis, hv, if_pos hlt]

theorem drainLoop_events (script : List (EResp BYTES)) (buf : BYTES) :
    (drainLoop script buf).events = (readDatas buf (okRun script)).map Event.drainEvt := by
  induction script generalizing buf with
  | nil => simp [drainLoop, okRun, readDatas]
  | cons hd tl ih =>
      cases hd with
      | ok bytes => simp [drainLoop, okRun, readDatas, ih]
      | done => simp [drainLoop, okRun, readDatas]
      | err => simp [drainLoop, okRun, readDatas]

theorem dgramLoop_events (script : List (EResp BYTES)) (buf : BYTES) :
    (dgramLoop script buf).events =
      (nonzeroReadDatas buf (okRun script)).map Event.dgramRecvEvt := by
  induction script generalizing buf with
  | nil => simp [dgramLoop, okRun, nonzeroReadDatas]
  | cons hd tl ih =>
      cases hd with
      | ok bytes =>
          by_cases hb : 0 < bytes.length <;>
            simp [dgramLoop, okRun, nonzeroReadDatas, ih, hb]
      | done => simp [dgramLoop, okRun, nonzeroReadDatas]
      | err => simp [dgramLoop, okRun, nonzeroReadDatas]

theorem drainLoop_calls_err (script : List (EResp BYTES)) (buf : BYTES)
    (rest : List (EResp BYTES)) (h : afterOk script = EResp.err :: rest) :
    (drainLoop script buf).calls =
      ((okRun script).map fun _ => ECall.send) ++ [ECall.send, ECall.close false 1 failReason] ∧
    (drainLoop script buf).script = rest := by
  induction script generalizing buf with
  | nil => simp [afterOk] at h
  | cons hd tl ih =>
      cases hd with
      | ok bytes =>
          have h2 : afterOk tl = EResp.err :: rest := by simpa [afterOk] using h
          have := ih (writeBuf buf bytes) h2
          simp [drainLoop, okRun, this.1, this.2]
      | done => simp [afterOk] at h
      | err =>
          have : rest = tl := by simpa [afterOk] using h.symm
          simp [drainLoop, okRun, this]

theorem drainLoop_events_kind (script : List (EResp BYTES)) (buf : BYTES) :
    ∀ e ∈ (drainLoop script buf).events, e.isDrain = true := by
  intro e he
  rw [drainLoop_events] at he
  obtain ⟨d, _, rfl⟩ := List.mem_map.mp he
  rfl

theorem dgramLoop_events_kind (script : List (EResp BYTES)) (buf : BYTES) :
    ∀ e ∈ (dgramLoop script buf).events, e.isDgram = true := by
  intro e he
  rw [dgramLoop_events] at he
  obtain ⟨d, _, rfl⟩ := List.mem_map.mp he
  rfl

theorem streamRecvLoop_events_kind (s : Nat) (script : List (EResp (BYTES × Bool)))
    (buf : BYTES) : ∀ e ∈ (streamRecvLoop s script buf).events, e.isStream = true := by
  induction script generalizing buf with
  | nil => simp [streamRecvLoop]
  | cons hd tl ih =>
      cases hd with
      | ok a =>
          obtain ⟨bytes, fin⟩ := a
          intro e he
          simp only [streamRecvLoop, List.mem_append] at he
          rcases he with he | he
          · by_cases hb : 0 < bytes.length
            · simp [hb] at he; subst he; rfl
            · simp [hb] at he
          · exact ih (writeBuf buf bytes) e he
      | done => simp [streamRecvLoop]
      | err => simp [streamRecvLoop]

theorem streamsLoop_events_kind (ss : List Nat) (script : List (EResp (BYTES × Bool)))
    (buf : BYTES) : ∀ e ∈ (streamsLoop ss script buf).events, e.isStream = true := by
  induction ss generalizing script buf with
  | nil => simp [streamsLoop]
  | cons s tl ih =>
      intro e he
      simp only [streamsLoop, List.mem_append] at he
      rcases he with he | he
      · exact streamRecvLoop_events_kind s script buf e he
      · exact ih _ _ e he

theorem handle_stream_preserves {c c1 : Connection} {pool pool1 : Pool} {rnd : Nat}
    {evS : List Event} {csS : List ECall}
    (h : c.handle_stream pool rnd = some (c1, pool1, evS, csS)) :
    c1.module = c.module ∧ c1.buf = c.buf ∧
    c1.engine.closed = c.engine.closed ∧
    c1.engine.established = c.engine.established ∧
    c1.engine.earlyData = c.engine.earlyData ∧
    c1.engine.timeoutVal = c.engine.timeoutVal ∧
    c1.engine.dgramRecvScript = c.engine.dgramRecvScript ∧
    c1.engine.sendScript = c.engine.sendScript := by
  unfold Connection.handle_stream at h
  split at h
  · split at h
    · split at h
      · exact absurd h (by simp)
      · simp only [Option.some.injEq, Prod.mk.injEq] at h
        obtain ⟨h1, _h2, _h3, _h4⟩ := h
        subst h1
        simp
    · simp only [Option.some.injEq, Prod.mk.injEq] at h
      obtain ⟨h1, _h2, _h3, _h4⟩ := h
      subst h1
      simp
  · simp only [Option.some.injEq, Prod.mk.injEq] at h
    obtain ⟨h1, _h2, _h3, _h4⟩ := h
    subst h1
    simp

theorem handle_dgram_preserves (c : Connection) :
    c.handle_dgram.1.module = c.module ∧
    c.handle_dgram.1.engine.closed = c.engine.closed ∧
    c.handle_dgram.1.engine.timeoutVal = c.engine.timeoutVal ∧
    c.handle_dgram.1.engine.sendScript = c.engine.sendScript := by
  unfold Connection.handle_dgram
  split <;> simp

theorem drain_preserves (c : Connection) :
    c.drain.1.module = c.module ∧
    c.drain.1.engine.closed = c.engine.closed ∧
    c.drain.1.engine.timeoutVal = c.engine.timeoutVal := by
  unfold Connection.drain
  simp

/-! ### Claims -/

/-- C1: once the engine reports closed, each mutating operation
(`on_packet`, `on_timeout`, `stream_send`, `dgram_send`, `close`) returns
`already_closed`, leaves the connection (engine state) and the buffer pool
exactly as they were, emits no event, and attempts no engine call. -/
theorem closed_ops_no_effect (c : Connection) (pool : Pool) (packet : BYTES) (rnd : Nat)
    (sid : Nat) (data : BYTES) (app : Bool) (code : Nat) (reason : BYTES)
    (h : c.is_closed = true) :
    c.on_packet pool packet rnd = some ⟨Except.error Atom.already_closed, c, pool, [], []⟩ ∧
    c.on_timeout = some ⟨Except.error Atom.already_closed, c, [], []⟩ ∧
    c.stream_send sid data = some ⟨Except.error Atom.already_closed, c, [], []⟩ ∧
    c.dgram_send data = some ⟨Except.error Atom.already_closed, c, [], []⟩ ∧
    c.close app code reason = ⟨Except.error Atom.already_closed, c, [], []⟩ := by
  have hb : c.engine.closed = true := h
  refine ⟨?_, ?_, ?_, ?_, ?_⟩ <;>
    simp [Connection.on_packet, Connection.on_timeout, Connection.stream_send,
          Connection.dgram_send, Connection.close, hb]

/-- Witness for C1 at a concrete closed connection. -/
theorem closed_ops_no_effect_witness :
    (Connection.new [1] ⟨true, true, false, EResp.ok 0, [2], [EResp.ok ([5], false)],
        [EResp.ok [6]], [EResp.ok 1], EResp.ok (), [EResp.ok [7]], none,
        EResp.ok ()⟩).on_packet [([1], [[0]])] [9] 3 =
      some ⟨Except.error Atom.already_closed,
        Connection.new [1] ⟨true, true, false, EResp.ok 0, [2], [EResp.ok ([5], false)],
          [EResp.ok [6]], [EResp.ok 1], EResp.ok (), [EResp.ok [7]], none,
          EResp.ok ()⟩, [([1], [[0]])], [], []⟩ :=
  (closed_ops_no_effect
    (Connection.new [1] ⟨true, true, false, EResp.ok 0, [2], [EResp.ok ([5], false)],
      [EResp.ok [6]], [EResp.ok 1], EResp.ok (), [EResp.ok [7]], none, EResp.ok ()⟩)
    [([1], [[0]])] [9] 3 4 [1, 2] true 0 [] rfl).1

/-- A quiescent open engine scaffold for concrete instances: not closed,
not established, every script empty, no timer. -/
def baseEngine : Engine :=
  ⟨false, false, false, EResp.ok 0, [], [], [], [], EResp.ok (), [], none, EResp.ok ()⟩

/-- C2 counterexample: an engine with an active timer of exactly 60
seconds.  `next_timeout` returns 60000 although a timer is set, so
"returns 60000 only if the engine reports no active timer" is false. -/
theorem next_timeout_60000_iff_cex :
    ¬ (((Connection.new [1] { baseEngine with timeoutVal := some ⟨60, 0⟩ }).next_timeout
          = some 60000) ↔
        (Connection.new [1]
          { baseEngine with timeoutVal := some ⟨60, 0⟩ }).engine.timeoutVal = none) := by
  decide

/-- C2 amended: `next_timeout` returns 60000 whenever the engine reports no
active timer; when a timer is set whose whole-millisecond count fits in a
`u64`, it returns exactly that count — which may itself be 60000, so a
60000 return does not imply the absence of a timer. -/
theorem next_timeout_spec (c : Connection) :
    (c.engine.timeoutVal = none → c.next_timeout = some 60000) ∧
    (∀ d, c.engine.timeoutVal = some d → d.as_millis < 2 ^ 64 →
      c.next_timeout = some d.as_millis) := by
  constructor
  · intro h; simp [Connection.next_timeout, h]
  · intro d hd hlt; simp only [Connection.next_timeout, hd, if_pos hlt]

/-- Witness for the amended C2: the default with no timer, and a timer of
2.5 seconds reported as 2500 ms. -/
theorem next_timeout_spec_witness :
    (Connection.new [1] baseEngine).next_timeout = some 60000 ∧
    (Connection.new [1] { baseEngine with timeoutVal := some ⟨2, 500000000⟩ }).next_timeout
      = some (Duration.as_millis ⟨2, 500000000⟩) :=
  ⟨(next_timeout_spec (Connection.new [1] baseEngine)).1 rfl,
   (next_timeout_spec
      (Connection.new [1] { baseEngine with timeoutVal := some ⟨2, 500000000⟩ })).2
     ⟨2, 500000000⟩ rfl (by decide)⟩

/-- C10: the `TryFrom::<u64>::try_from(..).unwrap()` in `next_timeout`
makes the operation total only when the engine's timer converts to a
millisecond count below `2^64`: below the bound the converted value is
returned, at or above it the operation panics, and a valid `Duration`
(secs below `2^64`, nanos below `10^9`) reaching the bound exists. -/
theorem next_timeout_unwrap_panic :
    (∀ (c : Connection) (d : Duration), c.engine.timeoutVal = some d →
      ((d.as_millis < 2 ^ 64 → c.next_timeout = some d.as_millis) ∧
       (2 ^ 64 ≤ d.as_millis → c.next_timeout = none))) ∧
    ∃ d : Duration, d.secs < 2 ^ 64 ∧ d.nanos < 10 ^ 9 ∧ 2 ^ 64 ≤ d.as_millis ∧
      (Connection.new [1] { baseEngine with timeoutVal := some d }).next_timeout = none := by
  constructor
  · intro c d hd
    constructor
    · intro hlt; simp only [Connection.next_timeout, hd, if_pos hlt]
    · intro hge; simp only [Connection.next_timeout, hd, if_neg (Nat.not_lt.mpr hge)]
  · exact ⟨⟨2 ^ 63, 0⟩, by decide, by decide, by decide, by decide⟩

/-- Witness for C10 at a 1-second timer. -/
theorem next_timeout_unwrap_panic_witness :
    (Connection.new [1] { baseEngine with timeoutVal := some ⟨1, 0⟩ }).next_timeout
      = some (Duration.as_millis ⟨1, 0⟩) :=
  ((next_timeout_unwrap_panic.1
      (Connection.new [1] { baseEngine with timeoutVal := some ⟨1, 0⟩ })
      ⟨1, 0⟩ rfl).1 (by decide))

theorem pool_get_append_self (p : Pool) (id : BYTES) (v : List BYTES)
    (h : Pool.get p id = none) : Pool.get (p ++ [(id, v)]) id = some v := by
  induction p with
  | nil => simp [Pool.get]
  | cons hd tl ih =>
      obtain ⟨k, w⟩ := hd
      by_cases hk : k = id
      · rw [Pool.get, if_pos hk] at h; exact absurd h (by simp)
      · rw [Pool.get, if_neg hk] at h
        rw [List.cons_append, Pool.get, if_neg hk]
        exact ih h

/-- C5: `buffer_init` is idempotent in its identifier — after
`buffer_init id n s` on a table without `id`, a second
`buffer_init id n2 s2` changes nothing, and the pool registered for `id`
keeps exactly `n` buffers of `s` bytes each. -/
theorem buffer_init_idempotent (p : Pool) (id : BYTES) (n s n2 s2 : Nat)
    (h : Pool.get p id = none) :
    buffer_init (buffer_init p id n s) id n2 s2 = buffer_init p id n s ∧
    ∃ bufs, Pool.get (buffer_init (buffer_init p id n s) id n2 s2) id = some bufs ∧
      bufs.length = n ∧ ∀ b ∈ bufs, b.length = s := by
  have h1 : buffer_init p id n s = p ++ [(id, List.replicate n (List.replicate s 0))] := by
    unfold buffer_init; rw [h]
  have h2 : Pool.get (buffer_init p id n s) id
      = some (List.replicate n (List.replicate s 0)) := by
    rw [h1]; exact pool_get_append_self p id _ h
  have hgen : ∀ q : Pool, Pool.get q id = some (List.replicate n (List.replicate s 0)) →
      buffer_init q id n2 s2 = q := by
    intro q hq; unfold buffer_init; rw [hq]
  have h3 : buffer_init (buffer_init p id n s) id n2 s2 = buffer_init p id n s :=
    hgen (buffer_init p id n s) h2
  refine ⟨h3, List.replicate n (List.replicate s 0), by rw [h3, h2], by simp, ?_⟩
  intro b hb
  simp [List.eq_of_mem_replicate hb]

/-- Witness for C5: a fresh pool, first call `(n, s) = (2, 5)`, second
call `(7, 9)`. -/
theorem buffer_init_idempotent_witness :
    buffer_init (buffer_init [] [3] 2 5) [3] 7 9 = buffer_init [] [3] 2 5 ∧
    ∃ bufs, Pool.get (buffer_init (buffer_init [] [3] 2 5) [3] 7 9) [3] = some bufs ∧
      bufs.length = 2 ∧ ∀ b ∈ bufs, b.length = 5 :=
  buffer_init_idempotent [] [3] 2 5 7 9 rfl

/-- C8: `connection_accept` returns `not_found` when no configuration is
registered for the identifier in the Config Registry; with a registered
configuration whose engine construction fails it returns `system_error`;
on engine success it returns `ok` with a locked connection wrapping a
fresh `Connection` for the module and constructed engine. -/
theorem connection_accept_spec (reg : Registry) (module scid odcid : BYTES) :
    (Registry.get reg module = none →
      connection_accept reg module scid odcid = Except.error Atom.not_found) ∧
    (∀ cfg, Registry.get reg module = some cfg →
      cfg.acceptFn scid (some odcid) = Except.error () →
      connection_accept reg module scid odcid = Except.error Atom.system_error) ∧
    (∀ cfg e, Registry.get reg module = some cfg →
      cfg.acceptFn scid (some odcid) = Except.ok e →
      connection_accept reg module scid odcid = Except.ok ⟨Connection.new module e⟩) := by
  refine ⟨?_, ?_, ?_⟩
  · intro h; simp [connection_accept, h]
  · intro cfg h1 h2; simp [connection_accept, h1, h2]
  · intro cfg e h1 h2; simp [connection_accept, h1, h2]

/-- Witness for C8: a missing identifier, a failing engine construction,
and a succeeding one. -/
theorem connection_accept_spec_witness :
    connection_accept [([1], ⟨fun _ _ => Except.ok baseEngine⟩)] [2] [5] [6]
      = Except.error Atom.not_found ∧
    connection_accept [([1], ⟨fun _ _ => Except.error ()⟩)] [1] [5] [6]
      = Except.error Atom.system_error ∧
    connection_accept [([1], ⟨fun _ _ => Except.ok baseEngine⟩)] [1] [5] [6]
      = Except.ok ⟨Connection.new [1] baseEngine⟩ :=
  ⟨(connection_accept_spec [([1], ⟨fun _ _ => Except.ok baseEngine⟩)] [2] [5] [6]).1 rfl,
   (connection_accept_spec [([1], ⟨fun _ _ => Except.error ()⟩)] [1] [5] [6]).2.1
     ⟨fun _ _ => Except.error ()⟩ rfl rfl,
   (connection_accept_spec [([1], ⟨fun _ _ => Except.ok baseEngine⟩)] [1] [5] [6]).2.2
     ⟨fun _ _ => Except.ok baseEngine⟩ baseEngine rfl rfl⟩

theorem handle_stream_events_kind {c c1 : Connection} {pool pool1 : Pool} {rnd : Nat}
    {evS : List Event} {csS : List ECall}
    (h : c.handle_stream pool rnd = some (c1, pool1, evS, csS)) :
    ∀ e ∈ evS, e.isStream = true := by
  unfold Connection.handle_stream at h
  split at h
  · split at h
    · split at h
      · exact absurd h (by simp)
      · simp only [Option.some.injEq, Prod.mk.injEq] at h
        obtain ⟨-, -, h3, -⟩ := h
        subst h3
        exact streamsLoop_events_kind _ _ _
    · simp only [Option.some.injEq, Prod.mk.injEq] at h
      obtain ⟨-, -, h3, -⟩ := h
      subst h3
      simp
  · simp only [Option.some.injEq, Prod.mk.injEq] at h
    obtain ⟨-, -, h3, -⟩ := h
    subst h3
    simp

theorem handle_dgram_events_kind (c : Connection) :
    ∀ e ∈ c.handle_dgram.2.1, e.isDgram = true := by
  unfold Connection.handle_dgram
  split
  · exact dgramLoop_events_kind _ _
  · simp

theorem drain_events_kind (c : Connection) :
    ∀ e ∈ c.drain.2.1, e.isDrain = true := by
  unfold Connection.drain
  exact drainLoop_events_kind _ _

/-- C7: within one successful `on_packet` call, the emitted events are all
the stream-data events, then all the datagram events, then all the drain
events, in that fixed order, and the call returns the next timeout. -/
theorem on_packet_event_order (c : Connection) (pool : Pool) (packet : BYTES) (rnd : Nat)
    (c1 : Connection) (pool1 : Pool) (evS : List Event) (csS : List ECall) (n : Nat)
    (hcl : c.engine.closed = false)
    (hrecv : c.engine.recvResp = EResp.ok n)
    (hstream : c.handle_stream pool rnd = some (c1, pool1, evS, csS))
    (hfit : tfitsB c.engine.timeoutVal = true) :
    ∃ evD evR c3 calls,
      c.on_packet pool packet rnd =
        some ⟨Except.ok (timeoutMillis c.engine.timeoutVal), c3, pool1,
              evS ++ evD ++ evR, calls⟩ ∧
      (∀ e ∈ evS, e.isStream = true) ∧
      (∀ e ∈ evD, e.isDgram = true) ∧
      (∀ e ∈ evR, e.isDrain = true) := by
  obtain ⟨-, -, -, -, -, htv1, -, -⟩ := handle_stream_preserves hstream
  rcases hdg : c1.handle_dgram with ⟨c2, evD, csD⟩
  rcases hdr : c2.drain with ⟨c3, evR, csR⟩
  obtain ⟨-, -, hdtv, -⟩ := handle_dgram_preserves c1
  obtain ⟨-, -, hrtv⟩ := drain_preserves c2
  rw [hdg] at hdtv
  rw [hdr] at hrtv
  have htv3 : c3.engine.timeoutVal = c.engine.timeoutVal := by
    rw [hrtv, hdtv, htv1]
  have hfit3 : tfitsB c3.engine.timeoutVal = true := by rw [htv3]; exact hfit
  have hto : c3.next_timeout = some (timeoutMillis c.engine.timeoutVal) := by
    rw [next_timeout_eq hfit3, htv3]
  refine ⟨evD, evR, c3, ECall.recv packet :: (csS ++ csD ++ csR), ?_, ?_, ?_, ?_⟩
  · simp only [Connection.on_packet, hcl, Bool.not_false, if_true, hrecv, hstream,
      hdg, hdr, hto]
  · exact handle_stream_events_kind hstream
  · have := handle_dgram_events_kind c1
    rw [hdg] at this
    exact this
  · have := drain_events_kind c2
    rw [hdr] at this
    exact this

/-- Witness engine for C7: established, one pending inbound datagram and
one outbound packet. -/
def wEngine : Engine :=
  { baseEngine with established := true,
                    dgramRecvScript := [EResp.ok [7]],
                    sendScript := [EResp.ok [3, 4]] }

/-- Witness for C7 at a concrete connection with a registered one-buffer
pool. -/
theorem on_packet_event_order_witness :
    ∃ evD evR c3 calls,
      (Connection.new [1] wEngine).on_packet [([1], [[0, 0]])] [9] 0 =
        some ⟨Except.ok (timeoutMillis (Connection.new [1] wEngine).engine.timeoutVal), c3,
              [([1], [[0, 0]])], [] ++ evD ++ evR, calls⟩ ∧
      (∀ e ∈ ([] : List Event), e.isStream = true) ∧
      (∀ e ∈ evD, e.isDgram = true) ∧
      (∀ e ∈ evR, e.isDrain = true) :=
  on_packet_event_order (Connection.new [1] wEngine) [([1], [[0, 0]])] [9] 0
    (Connection.new [1] wEngine) [([1], [[0, 0]])] [] [] 0 rfl rfl rfl rfl

theorem writeBuf_length (buf bytes : BYTES) : (writeBuf buf bytes).length = buf.length := by
  simp [writeBuf]
  omega

theorem dgramLoop_buf_length (script : List (EResp BYTES)) (buf : BYTES) :
    (dgramLoop script buf).buf.length = buf.length := by
  induction script generalizing buf with
  | nil => simp [dgramLoop]
  | cons hd tl ih =>
      cases hd with
      | ok bytes => simp [dgramLoop, ih, writeBuf_length]
      | done => simp [dgramLoop]
      | err => simp [dgramLoop]

theorem drainLoop_buf_length (script : List (EResp BYTES)) (buf : BYTES) :
    (drainLoop script buf).buf.length = buf.length := by
  induction script generalizing buf with
  | nil => simp [drainLoop]
  | cons hd tl ih =>
      cases hd with
      | ok bytes => simp [drainLoop, ih, writeBuf_length]
      | done => simp [drainLoop]
      | err => simp [drainLoop]

theorem drain_buf_length (c : Connection) : c.drain.1.buf.length = c.buf.length := by
  unfold Connection.drain
  simp [drainLoop_buf_length]

/-- C3 counterexample engine: `recv` succeeds, the connection is neither
established nor in early data, and the engine holds a pending nonempty
datagram. -/
def cex3Engine : Engine := { baseEngine with dgramRecvScript := [EResp.ok [1, 2, 3]] }

/-- C3 counterexample: `recv` succeeds and the engine has a pending
nonzero-length datagram (`dgram_recv` would succeed with 3 bytes), yet
`on_packet` emits no datagram event and never calls `dgram_recv`, because
the connection is neither established nor in early data — the claim's
unconditional "datagrams are drained" fails. -/
theorem on_packet_dgram_cex :
    (Connection.new [2] cex3Engine).engine.recvResp = EResp.ok 0 ∧
    (Connection.new [2] cex3Engine).engine.dgramRecvScript = [EResp.ok [1, 2, 3]] ∧
    (Connection.new [2] cex3Engine).on_packet [] [9] 0 =
      some ⟨Except.ok 60000, Connection.new [2] cex3Engine, [], [],
            [ECall.recv [9], ECall.send]⟩ :=
  ⟨rfl, rfl, rfl⟩

/-- C3 amended: during every `on_packet` call in which `recv` succeeds
*and the connection is established or in early data*, datagrams are
drained: while `dgram_recv` succeeds, each nonzero-length datagram is
emitted as an event whose bytes are read through the connection's private
scratch buffer (whose fixed length is preserved), after the stream events
and before the drain events; the Buffer Pool is exactly the one left by
the stream stage — datagram draining never touches a pool buffer. -/
theorem on_packet_dgram_drain (c : Connection) (pool : Pool) (packet : BYTES) (rnd : Nat)
    (c1 : Connection) (pool1 : Pool) (evS : List Event) (csS : List ECall) (n : Nat)
    (hcl : c.engine.closed = false)
    (hrecv : c.engine.recvResp = EResp.ok n)
    (hest : (c.engine.earlyData || c.engine.established) = true)
    (hstream : c.handle_stream pool rnd = some (c1, pool1, evS, csS))
    (hfit : tfitsB c.engine.timeoutVal = true) :
    ∃ t c3 evR calls,
      c.on_packet pool packet rnd =
        some ⟨Except.ok t, c3, pool1,
              evS ++ (nonzeroReadDatas c.buf (okRun c.engine.dgramRecvScript)).map
                Event.dgramRecvEvt ++ evR, calls⟩ ∧
      c3.buf.length = c.buf.length := by
  obtain ⟨-, hbuf1, -, hestp, hearlyp, htv1, hdgrp, -⟩ := handle_stream_preserves hstream
  have hguard1 : (c1.engine.earlyData || c1.engine.established) = true := by
    rw [hearlyp, hestp]; exact hest
  rcases hdgE : c1.handle_dgram with ⟨c2, evD, csD⟩
  have hdgE2 := hdgE
  simp only [Connection.handle_dgram, hguard1, if_true] at hdgE2
  injection hdgE2 with hc2 hrest
  injection hrest with hevD hcsD
  rcases hdrE : c2.drain with ⟨c3, evR, csR⟩
  obtain ⟨-, -, hdtv, -⟩ := handle_dgram_preserves c1
  obtain ⟨-, -, hrtv⟩ := drain_preserves c2
  rw [hdgE] at hdtv
  rw [hdrE] at hrtv
  have htv3 : c3.engine.timeoutVal = c.engine.timeoutVal := by rw [hrtv, hdtv, htv1]
  have hfit3 : tfitsB c3.engine.timeoutVal = true := by rw [htv3]; exact hfit
  have hto : c3.next_timeout = some (timeoutMillis c.engine.timeoutVal) := by
    rw [next_timeout_eq hfit3, htv3]
  have hevD2 : evD = (nonzeroReadDatas c.buf (okRun c.engine.dgramRecvScript)).map
      Event.dgramRecvEvt := by
    rw [← hevD, dgramLoop_events, hdgrp, hbuf1]
  have hlen3 : c3.buf.length = c.buf.length := by
    have hd := drain_buf_length c2
    rw [hdrE] at hd
    have hc2b : c2.buf.length = c1.buf.length := by
      rw [← hc2]
      exact dgramLoop_buf_length _ _
    rw [hd, hc2b, hbuf1]
  refine ⟨timeoutMillis c.engine.timeoutVal, c3, evR,
    ECall.recv packet :: (csS ++ csD ++ csR), ?_, hlen3⟩
  simp only [Connection.on_packet, hcl, Bool.not_false, if_true, hrecv, hstream,
    hdgE, hdrE, hto, hevD2]

/-- Witness for the amended C3 at a concrete established connection with a
pending 1-byte datagram. -/
theorem on_packet_dgram_drain_witness :
    ∃ t c3 evR calls,
      (Connection.new [1] wEngine).on_packet [([1], [[0, 0]])] [9] 0 =
        some ⟨Except.ok t, c3, [([1], [[0, 0]])],
              [] ++ (nonzeroReadDatas (Connection.new [1] wEngine).buf
                (okRun (Connection.new [1] wEngine).engine.dgramRecvScript)).map
                Event.dgramRecvEvt ++ evR, calls⟩ ∧
      c3.buf.length = (Connection.new [1] wEngine).buf.length :=
  on_packet_dgram_drain (Connection.new [1] wEngine) [([1], [[0, 0]])] [9] 0
    (Connection.new [1] wEngine) [([1], [[0, 0]])] [] [] 0 rfl rfl rfl rfl rfl

theorem handle_stream_no_pool {c : Connection} {pool : Pool} {rnd : Nat}
    (hpool : Pool.get pool c.module = none) :
    c.handle_stream pool rnd = some (c, pool, [], []) := by
  unfold Connection.handle_stream
  split
  · rw [hpool]
  · rfl

theorem dgramLoop_calls_kind (script : List (EResp BYTES)) (buf : BYTES) :
    ∀ k ∈ (dgramLoop script buf).calls, k = ECall.dgramRecv := by
  induction script generalizing buf with
  | nil => simp [dgramLoop]
  | cons hd tl ih =>
      cases hd with
      | ok bytes =>
          intro k hk
          simp only [dgramLoop, List.mem_cons] at hk
          rcases hk with rfl | hk
          · rfl
          · exact ih (writeBuf buf bytes) k hk
      | done => simp [dgramLoop]
      | err => simp [dgramLoop]

theorem drainLoop_calls_kind (script : List (EResp BYTES)) (buf : BYTES) :
    ∀ k ∈ (drainLoop script buf).calls,
      k = ECall.send ∨ k = ECall.close false 1 failReason := by
  induction script generalizing buf with
  | nil => simp [drainLoop]
  | cons hd tl ih =>
      cases hd with
      | ok bytes =>
          intro k hk
          simp only [drainLoop, List.mem_cons] at hk
          rcases hk with rfl | hk
          · exact Or.inl rfl
          · exact ih (writeBuf buf bytes) k hk
      | done => simp [drainLoop]
      | err =>
          intro k hk
          simp only [drainLoop, List.mem_cons, List.not_mem_nil, or_false] at hk
          rcases hk with rfl | rfl
          · exact Or.inl rfl
          · exact Or.inr rfl

theorem handle_dgram_calls_kind (c : Connection) :
    ∀ k ∈ c.handle_dgram.2.2, k = ECall.dgramRecv := by
  unfold Connection.handle_dgram
  split
  · exact dgramLoop_calls_kind _ _
  · simp

theorem drain_calls_kind (c : Connection) :
    ∀ k ∈ c.drain.2.2, k = ECall.send ∨ k = ECall.close false 1 failReason := by
  unfold Connection.drain
  exact drainLoop_calls_kind _ _

/-- C9: when no buffer pool was ever initialized for the connection's
module identifier, a successful `on_packet` emits no stream-data event and
performs no `stream_recv` engine call — readable stream data is left
unread — while the call still succeeds with the next timeout, leaves the
pool unchanged, and the events are exactly the datagram-stage events
followed by the drain-stage events. -/
theorem on_packet_no_pool (c : Connection) (pool : Pool) (packet : BYTES) (rnd : Nat)
    (n : Nat)
    (hcl : c.engine.closed = false)
    (hrecv : c.engine.recvResp = EResp.ok n)
    (hpool : Pool.get pool c.module = none)
    (hfit : tfitsB c.engine.timeoutVal = true) :
    ∃ c3 evD evR calls,
      c.on_packet pool packet rnd =
        some ⟨Except.ok (timeoutMillis c.engine.timeoutVal), c3, pool,
              evD ++ evR, calls⟩ ∧
      evD = c.handle_dgram.2.1 ∧
      (∀ e ∈ evD, e.isDgram = true) ∧
      (∀ e ∈ evR, e.isDrain = true) ∧
      (∀ e ∈ evD ++ evR, e.isStream = false) ∧
      (∀ k ∈ calls, k.isStreamRecv = false) := by
  have hstream := @handle_stream_no_pool c pool rnd hpool
  rcases hdgE : c.handle_dgram with ⟨c2, evD, csD⟩
  rcases hdrE : c2.drain with ⟨c3, evR, csR⟩
  obtain ⟨-, -, hdtv, -⟩ := handle_dgram_preserves c
  obtain ⟨-, -, hrtv⟩ := drain_preserves c2
  rw [hdgE] at hdtv
  rw [hdrE] at hrtv
  have htv3 : c3.engine.timeoutVal = c.engine.timeoutVal := by rw [hrtv, hdtv]
  have hfit3 : tfitsB c3.engine.timeoutVal = true := by rw [htv3]; exact hfit
  have hto : c3.next_timeout = some (timeoutMillis c.engine.timeoutVal) := by
    rw [next_timeout_eq hfit3, htv3]
  have hkD : ∀ e ∈ evD, e.isDgram = true := by
    have := handle_dgram_events_kind c
    rw [hdgE] at this
    exact this
  have hkR : ∀ e ∈ evR, e.isDrain = true := by
    have := drain_events_kind c2
    rw [hdrE] at this
    exact this
  refine ⟨c3, evD, evR, ECall.recv packet :: (([] : List ECall) ++ csD ++ csR),
    ?_, by simp [hdgE], hkD, hkR, ?_, ?_⟩
  · simp only [Connection.on_packet, hcl, Bool.not_false, if_true, hrecv, hstream,
      hdgE, hdrE, hto, List.nil_append]
  · intro e he
    rcases List.mem_append.mp he with he | he
    · cases e with
      | streamRecvEvt sid d => exact absurd (hkD _ he) (by simp [Event.isDgram])
      | dgramRecvEvt d => rfl
      | drainEvt d => rfl
    · cases e with
      | streamRecvEvt sid d => exact absurd (hkR _ he) (by simp [Event.isDrain])
      | dgramRecvEvt d => rfl
      | drainEvt d => rfl
  · intro k hk
    simp only [List.nil_append, List.mem_cons] at hk
    rcases hk with rfl | hk
    · rfl
    · rcases List.mem_append.mp hk with hk | hk
      · have := handle_dgram_calls_kind c
        rw [hdgE] at this
        rw [this k hk]; rfl
      · have := drain_calls_kind c2
        rw [hdrE] at this
        rcases this k hk with rfl | rfl <;> rfl

/-- Witness for C9: an established connection with pending datagram and
outbound data but an empty buffer-pool table. -/
theorem on_packet_no_pool_witness :
    ∃ c3 evD evR calls,
      (Connection.new [1] wEngine).on_packet [] [9] 0 =
        some ⟨Except.ok (timeoutMillis (Connection.new [1] wEngine).engine.timeoutVal), c3,
              [], evD ++ evR, calls⟩ ∧
      evD = (Connection.new [1] wEngine).handle_dgram.2.1 ∧
      (∀ e ∈ evD, e.isDgram = true) ∧
      (∀ e ∈ evR, e.isDrain = true) ∧
      (∀ e ∈ evD ++ evR, e.isStream = false) ∧
      (∀ k ∈ calls, k.isStreamRecv = false) :=
  on_packet_no_pool (Connection.new [1] wEngine) [] [9] 0 0 rfl rfl rfl rfl

/-- C6: the drain loop emits one `__drain__` event per packet the engine
produces and stops exactly at the engine's `Done` signal — the events are
exactly the reads of the leading run of successful `send` calls, none
beyond it; if `send` fails with any other error, the loop makes one last
engine call, `close(false, 0x1, b"fail")` (forcing the engine towards its
closed state with the fixed internal code and reason), and stops; and the
operation that triggered the drain (`on_timeout` here) still returns
success with the next timeout, whatever the drain outcome. -/
theorem drain_done_and_error_policy :
    (∀ (script : List (EResp BYTES)) (buf : BYTES),
      (drainLoop script buf).events = (readDatas buf (okRun script)).map Event.drainEvt) ∧
    (∀ (script : List (EResp BYTES)) (buf : BYTES) (rest : List (EResp BYTES)),
      afterOk script = EResp.err :: rest →
      (drainLoop script buf).calls =
        ((okRun script).map fun _ => ECall.send) ++
          [ECall.send, ECall.close false 1 failReason] ∧
      (drainLoop script buf).script = rest) ∧
    (∀ c : Connection, c.engine.closed = false → tfitsB c.engine.timeoutVal = true →
      c.on_timeout = some ⟨Except.ok (timeoutMillis c.engine.timeoutVal), c.drain.1,
        c.drain.2.1, ECall.onTimeout :: c.drain.2.2⟩) := by
  refine ⟨drainLoop_events, drainLoop_calls_err, ?_⟩
  intro c hcl hfit
  obtain ⟨-, -, hrtv⟩ := drain_preserves c
  have hfit1 : tfitsB c.drain.1.engine.timeoutVal = true := by rw [hrtv]; exact hfit
  have hto : c.drain.1.next_timeout = some (timeoutMillis c.engine.timeoutVal) := by
    rw [next_timeout_eq hfit1, hrtv]
  rcases hdr : c.drain with ⟨c1, evR, csR⟩
  rw [hdr] at hto
  simp only [Connection.on_timeout, hcl, Bool.not_false, if_true, hdr, hto]

/-- Witness for C6: a drain script producing one packet and then failing,
and an `on_timeout` trigger over that failing script which still returns
success. -/
theorem drain_done_and_error_policy_witness :
    ((drainLoop [EResp.ok [5], EResp.err, EResp.done] [0, 0]).calls =
      ((okRun [EResp.ok [5], EResp.err, EResp.done]).map fun _ => ECall.send) ++
        [ECall.send, ECall.close false 1 failReason] ∧
     (drainLoop [EResp.ok [5], EResp.err, EResp.done] [0, 0]).script = [EResp.done]) ∧
    (Connection.new [1] { baseEngine with sendScript := [EResp.ok [5], EResp.err] }).on_timeout
      = some ⟨Except.ok (timeoutMillis
          (Connection.new [1]
            { baseEngine with sendScript := [EResp.ok [5], EResp.err] }).engine.timeoutVal),
          (Connection.new [1] { baseEngine with sendScript := [EResp.ok [5], EResp.err] }).drain.1,
          (Connection.new [1] { baseEngine with sendScript := [EResp.ok [5], EResp.err] }).drain.2.1,
          ECall.onTimeout ::
            (Connection.new [1]
              { baseEngine with sendScript := [EResp.ok [5], EResp.err] }).drain.2.2⟩ :=
  ⟨drain_done_and_error_policy.2.1 [EResp.ok [5], EResp.err, EResp.done] [0, 0] [EResp.done] rfl,
   drain_done_and_error_policy.2.2
     (Connection.new [1] { baseEngine with sendScript := [EResp.ok [5], EResp.err] }) rfl rfl⟩

theorem streamSendLoop_ok_complete (sid : Nat) (data : BYTES) (len : Nat)
    (rest : List (EResp Nat)) (pos : Nat) (sendScr : List (EResp BYTES)) (buf : BYTES)
    (h : data.length ≤ pos + len) :
    streamSendLoop sid data (EResp.ok len :: rest) pos sendScr buf =
      ⟨StopReason.completed, pos + len, [len], rest, (drainLoop sendScr buf).script,
        (drainLoop sendScr buf).buf, (drainLoop sendScr buf).events,
        ECall.streamSend sid (data.drop pos) true :: (drainLoop sendScr buf).calls⟩ := by
  simp [streamSendLoop, h]

theorem streamSendLoop_ok_next (sid : Nat) (data : BYTES) (len : Nat)
    (rest : List (EResp Nat)) (pos : Nat) (sendScr : List (EResp BYTES)) (buf : BYTES)
    (h : ¬ data.length ≤ pos + len) :
    streamSendLoop sid data (EResp.ok len :: rest) pos sendScr buf =
      ⟨(streamSendLoop sid data rest (pos + len) (drainLoop sendScr buf).script
          (drainLoop sendScr buf).buf).reason,
        (streamSendLoop sid data rest (pos + len) (drainLoop sendScr buf).script
          (drainLoop sendScr buf).buf).pos,
        len :: (streamSendLoop sid data rest (pos + len) (drainLoop sendScr buf).script
          (drainLoop sendScr buf).buf).accepted,
        (streamSendLoop sid data rest (pos + len) (drainLoop sendScr buf).script
          (drainLoop sendScr buf).buf).script,
        (streamSendLoop sid data rest (pos + len) (drainLoop sendScr buf).script
          (drainLoop sendScr buf).buf).sendScr,
        (streamSendLoop sid data rest (pos + len) (drainLoop sendScr buf).script
          (drainLoop sendScr buf).buf).buf,
        (drainLoop sendScr buf).events ++
          (streamSendLoop sid data rest (pos + len) (drainLoop sendScr buf).script
            (drainLoop sendScr buf).buf).events,
        ECall.streamSend sid (data.drop pos) true ::
          ((drainLoop sendScr buf).calls ++
            (streamSendLoop sid data rest (pos + len) (drainLoop sendScr buf).script
              (drainLoop sendScr buf).buf).calls)⟩ := by
  simp [streamSendLoop, h]

theorem streamSendLoop_pos_sum (sid : Nat) (data : BYTES) (script : List (EResp Nat)) :
    ∀ (pos : Nat) (sendScr : List (EResp BYTES)) (buf : BYTES),
      (streamSendLoop sid data script pos sendScr buf).pos =
        pos + (streamSendLoop sid data script pos sendScr buf).accepted.sum := by
  induction script with
  | nil => intro pos sendScr buf; simp [streamSendLoop]
  | cons hd tl ih =>
      intro pos sendScr buf
      cases hd with
      | ok len =>
          by_cases h : data.length ≤ pos + len
          · rw [streamSendLoop_ok_complete sid data len tl pos sendScr buf h]
            simp
          · rw [streamSendLoop_ok_next sid data len tl pos sendScr buf h]
            simp only [List.sum_cons]
            rw [ih]
            omega
      | done => simp [streamSendLoop]
      | err => simp [streamSendLoop]

theorem streamSendLoop_completed (sid : Nat) (data : BYTES) (script : List (EResp Nat)) :
    ∀ (pos : Nat) (sendScr : List (EResp BYTES)) (buf : BYTES),
      (streamSendLoop sid data script pos sendScr buf).reason = StopReason.completed →
      data.length ≤ (streamSendLoop sid data script pos sendScr buf).pos := by
  induction script with
  | nil => intro pos sendScr buf h; simp [streamSendLoop] at h
  | cons hd tl ih =>
      intro pos sendScr buf h
      cases hd with
      | ok len =>
          by_cases hle : data.length ≤ pos + len
          · rw [streamSendLoop_ok_complete sid data len tl pos sendScr buf hle]
            exact hle
          · rw [streamSendLoop_ok_next sid data len tl pos sendScr buf hle]
            rw [streamSendLoop_ok_next sid data len tl pos sendScr buf hle] at h
            exact ih _ _ _ h
      | done => simp [streamSendLoop] at h
      | err => simp [streamSendLoop] at h

theorem streamSendLoop_err_mem (sid : Nat) (data : BYTES) (script : List (EResp Nat)) :
    ∀ (pos : Nat) (sendScr : List (EResp BYTES)) (buf : BYTES),
      (streamSendLoop sid data script pos sendScr buf).reason = StopReason.engineErr →
      EResp.err ∈ script := by
  induction script with
  | nil => intro pos sendScr buf h; simp [streamSendLoop] at h
  | cons hd tl ih =>
      intro pos sendScr buf h
      cases hd with
      | ok len =>
          by_cases hle : data.length ≤ pos + len
          · rw [streamSendLoop_ok_complete sid data len tl pos sendScr buf hle] at h
            exact absurd h (by simp)
          · rw [streamSendLoop_ok_next sid data len tl pos sendScr buf hle] at h
            exact List.mem_cons_of_mem _ (ih _ _ _ h)
      | done => simp [streamSendLoop] at h
      | err => exact List.mem_cons_self _ _

theorem drainLoop_send_count (script : List (EResp BYTES)) (buf : BYTES) :
    1 ≤ (drainLoop script buf).calls.countP ECall.isSend := by
  induction script generalizing buf with
  | nil => simp [drainLoop, ECall.isSend]
  | cons hd tl ih =>
      cases hd with
      | ok bytes =>
          have := ih (writeBuf buf bytes)
          simp only [drainLoop, List.countP_cons]
          omega
      | done => simp [drainLoop, ECall.isSend]
      | err => simp [drainLoop, ECall.isSend, List.countP_cons]

theorem streamSendLoop_drain_per_chunk (sid : Nat) (data : BYTES)
    (script : List (EResp Nat)) :
    ∀ (pos : Nat) (sendScr : List (EResp BYTES)) (buf : BYTES),
      (streamSendLoop sid data script pos sendScr buf).accepted.length ≤
        (streamSendLoop sid data script pos sendScr buf).calls.countP ECall.isSend := by
  induction script with
  | nil => intro pos sendScr buf; simp [streamSendLoop]
  | cons hd tl ih =>
      intro pos sendScr buf
      cases hd with
      | ok len =>
          by_cases hle : data.length ≤ pos + len
          · rw [streamSendLoop_ok_complete sid data len tl pos sendScr buf hle]
            have := drainLoop_send_count sendScr buf
            simp only [List.length_cons, List.length_nil, List.countP_cons]
            simp only [ECall.isSend]
            omega
          · rw [streamSendLoop_ok_next sid data len tl pos sendScr buf hle]
            have h1 := drainLoop_send_count sendScr buf
            have h2 := ih (pos + len) (drainLoop sendScr buf).script (drainLoop sendScr buf).buf
            simp only [List.length_cons, List.countP_cons, List.countP_append]
            simp only [ECall.isSend]
            omega
      | done => simp [streamSendLoop]
      | err => simp [streamSendLoop]

theorem streamSendLoop_calls_shape (sid : Nat) (data : BYTES) (script : List (EResp Nat)) :
    ∀ (pos : Nat) (sendScr : List (EResp BYTES)) (buf : BYTES),
      ∀ e ∈ (streamSendLoop sid data script pos sendScr buf).calls,
        ∀ s2 d f, e = ECall.streamSend s2 d f →
          s2 = sid ∧ f = true ∧ ∃ q, d = data.drop q := by
  induction script with
  | nil =>
      intro pos sendScr buf e he s2 d f hef
      simp only [streamSendLoop, List.mem_singleton] at he
      subst he
      injection hef with h1 h2 h3
      exact ⟨h1.symm, h3.symm, pos, h2.symm⟩
  | cons hd tl ih =>
      intro pos sendScr buf e he s2 d f hef
      cases hd with
      | ok len =>
          by_cases hle : data.length ≤ pos + len
          · rw [streamSendLoop_ok_complete sid data len tl pos sendScr buf hle] at he
            simp only [List.mem_cons] at he
            rcases he with rfl | he
            · injection hef with h1 h2 h3
              exact ⟨h1.symm, h3.symm, pos, h2.symm⟩
            · rcases drainLoop_calls_kind sendScr buf e he with rfl | rfl
              · exact absurd hef (by simp)
              · exact absurd hef (by simp)
          · rw [streamSendLoop_ok_next sid data len tl pos sendScr buf hle] at he
            simp only [List.mem_cons, List.mem_append] at he
            rcases he with rfl | he | he
            · injection hef with h1 h2 h3
              exact ⟨h1.symm, h3.symm, pos, h2.symm⟩
            · rcases drainLoop_calls_kind sendScr buf e he with rfl | rfl
              · exact absurd hef (by simp)
              · exact absurd hef (by simp)
            · exact ih _ _ _ e he s2 d f hef
      | done =>
          simp only [streamSendLoop, List.mem_singleton] at he
          subst he
          injection hef with h1 h2 h3
          exact ⟨h1.symm, h3.symm, pos, h2.symm⟩
      | err =>
          simp only [streamSendLoop, List.mem_singleton] at he
          subst he
          injection hef with h1 h2 h3
          exact ⟨h1.symm, h3.symm, pos, h2.symm⟩

theorem sendUpdated_timeoutVal (c : Connection) (r : SendLoopOut) :
    (sendUpdated c r).engine.timeoutVal = c.engine.timeoutVal := rfl

/-- C4: on an open connection, `stream_send` loops over the engine's
`stream_send`: every engine `stream_send` call carries the given stream
id, the fin flag fixed to `true`, and the remaining unsent suffix of the
payload; the sent offset equals the sum of the engine-reported accepted
lengths; when the loop runs to completion the whole payload is accounted
for; the engine is drained at least once per accepted chunk; an error stop
can only come from a non-`Done` engine failure, in which case the call
returns `system_error`; any other stop — completion or the engine's
`Done` ("cannot accept more right now") — makes the call succeed with the
next timeout. -/
theorem stream_send_spec (c : Connection) (sid : Nat) (data : BYTES) (r : SendLoopOut)
    (hr : r = streamSendLoop sid data c.engine.streamSendScript 0 c.engine.sendScript c.buf)
    (hcl : c.engine.closed = false)
    (hfit : tfitsB c.engine.timeoutVal = true) :
    (∀ e ∈ r.calls, ∀ s2 d f, e = ECall.streamSend s2 d f →
        s2 = sid ∧ f = true ∧ ∃ q, d = data.drop q) ∧
    r.pos = r.accepted.sum ∧
    (r.reason = StopReason.completed → data.length ≤ r.pos) ∧
    r.accepted.length ≤ r.calls.countP ECall.isSend ∧
    (r.reason = StopReason.engineErr → EResp.err ∈ c.engine.streamSendScript) ∧
    (r.reason = StopReason.engineErr →
      c.stream_send sid data =
        some ⟨Except.error Atom.system_error, sendUpdated c r, r.events, r.calls⟩) ∧
    (r.reason ≠ StopReason.engineErr →
      c.stream_send sid data =
        some ⟨Except.ok (timeoutMillis c.engine.timeoutVal), sendUpdated c r,
              r.events, r.calls⟩) := by
  have hto : (sendUpdated c
      (streamSendLoop sid data c.engine.streamSendScript 0 c.engine.sendScript
        c.buf)).next_timeout = some (timeoutMillis c.engine.timeoutVal) := by
    rw [next_timeout_eq (by rw [sendUpdated_timeoutVal]; exact hfit), sendUpdated_timeoutVal]
  subst hr
  refine ⟨streamSendLoop_calls_shape sid data _ 0 _ _,
    by simpa using streamSendLoop_pos_sum sid data _ 0 _ _,
    streamSendLoop_completed sid data _ 0 _ _,
    streamSendLoop_drain_per_chunk sid data _ 0 _ _,
    streamSendLoop_err_mem sid data _ 0 _ _, ?_, ?_⟩
  · intro hR
    simp only [Connection.stream_send, hcl, Bool.not_false, if_true, hR]
  · intro hR
    simp only [Connection.stream_send, hcl, Bool.not_false, if_true]
    rcases hRc : (streamSendLoop sid data c.engine.streamSendScript 0 c.engine.sendScript
        c.buf).reason with _ | _ | _
    · rw [hto]
    · rw [hto]
    · exact absurd hRc hR

/-- Concrete connection for the C4 witness: the engine accepts a 5-byte
payload in chunks of 2 then 3, with one outbound packet per drain. -/
def sWitnessEngine : Engine :=
  { baseEngine with streamSendScript := [EResp.ok 2, EResp.ok 3],
                    sendScript := [EResp.ok [8]] }

/-- The C4 witness connection. -/
def sWitnessConn : Connection :=
  Connection.new [1] sWitnessEngine

/-- The C4 witness loop output. -/
def sWitnessLoop : SendLoopOut :=
  streamSendLoop 4 [1, 2, 3, 4, 5] sWitnessConn.engine.streamSendScript 0
    sWitnessConn.engine.sendScript sWitnessConn.buf

/-- Witness for C4 at the concrete two-chunk payload. -/
theorem stream_send_spec_witness :
    (∀ e ∈ sWitnessLoop.calls, ∀ s2 d f, e = ECall.streamSend s2 d f →
        s2 = 4 ∧ f = true ∧ ∃ q, d = [1, 2, 3, 4, 5].drop q) ∧
    sWitnessLoop.pos = sWitnessLoop.accepted.sum ∧
    (sWitnessLoop.reason = StopReason.completed →
      [1, 2, 3, 4, 5].length ≤ sWitnessLoop.pos) ∧
    sWitnessLoop.accepted.length ≤ sWitnessLoop.calls.countP ECall.isSend ∧
    (sWitnessLoop.reason = StopReason.engineErr →
      EResp.err ∈ sWitnessConn.engine.streamSendScript) ∧
    (sWitnessLoop.reason = StopReason.engineErr →
      sWitnessConn.stream_send 4 [1, 2, 3, 4, 5] =
        some ⟨Except.error Atom.system_error, sendUpdated sWitnessConn sWitnessLoop,
              sWitnessLoop.events, sWitnessLoop.calls⟩) ∧
    (sWitnessLoop.reason ≠ StopReason.engineErr →
      sWitnessConn.stream_send 4 [1, 2, 3, 4, 5] =
        some ⟨Except.ok (timeoutMillis sWitnessConn.engine.timeoutVal),
              sendUpdated sWitnessConn sWitnessLoop,
              sWitnessLoop.events, sWitnessLoop.calls⟩) :=
  stream_send_spec sWitnessConn 4 [1, 2, 3, 4, 5] sWitnessLoop rfl rfl rfl
